import Mathlib

/-!
Verification of the ytdlp-ui server (server.mjs) against its specification.

The development shallowly embeds the relevant parts of the server:
  * the file-name sanitization and path resolution of the GET /api/file route,
  * the in-memory job registry with its bounded log, SSE listeners and
    terminal ("done") event semantics (jobAppend / jobDone / events route),
  * the argument construction and control flow of POST /api/download,
  * the GET /api/files route,
  * the two line-framing pipelines (the buffered one of /api/list and the
    per-chunk one feeding the job log).
-/

/-! ## Path sanitization (safeBasename and the GET /api/file route)

Source:
  function safeBasename(name) {
    return path.basename(String(name || "")).replace(/[<>:"\/\\|?*\u0000-\u001F]/g, "_");
  }
and in the route:
  const rawName = decodeURIComponent(fileMatch[2] || "");
  const fileName = safeBasename(rawName);
  const fullPath = path.join(dir, fileName);

We quantify over the already-percent-decoded name, which covers every
encodable request string.  Node's posix path.basename drops trailing
slashes and keeps the last slash-separated component. -/

def dropTrailingSlashes (s : List Char) : List Char :=
  (s.reverse.dropWhile (fun c => c = '/')).reverse

def lastComponent (s : List Char) : List Char :=
  (s.reverse.takeWhile (fun c => c ≠ '/')).reverse

def posixBasename (s : List Char) : List Char :=
  lastComponent (dropTrailingSlashes s)

/-- The character class of the replacement regex in safeBasename. -/
def isReplacedChar (c : Char) : Bool :=
  c = '<' || c = '>' || c = ':' || c = '"' || c = '/' || c = '\\' ||
  c = '|' || c = '?' || c = '*' || c.toNat ≤ 31

def sanitizeChar (c : Char) : Char :=
  if isReplacedChar c then '_' else c

def safeBasename (name : String) : String :=
  String.mk ((posixBasename name.data).map sanitizeChar)

/-- A directory is modelled by its list of path components (the job
directory is an absolute, already-normalized path).  path.join with a
single separator-free component, followed by normalization, keeps the
directory for "" and ".", steps to the parent for "..", and descends
into the named child otherwise. -/
def resolveRequestPath (dir : List String) (name : String) : List String :=
  let f := safeBasename name
  if f = "" then dir
  else if f = "." then dir
  else if f = ".." then dir.dropLast
  else dir ++ [f]

/-- dir is a path-prefix of p. -/
def withinDir : List String → List String → Bool
  | [], _ => true
  | _ :: _, [] => false
  | d :: ds, p :: ps => d = p && withinDir ds ps

/-! ## Job registry: bounded log, SSE listeners, terminal event

Source (createAppServer):
  function jobAppend(jobId, line) {
    const job = jobs.get(jobId);
    if (!job) return;
    job.lines.push(line);
    if (job.lines.length > 2000) job.lines.splice(0, job.lines.length - 2000);
    for (const client of job.sseClients) sseSend(client, "log", { line });
  }
  function jobDone(jobId, exitCode) {
    const job = jobs.get(jobId);
    if (!job) return;
    job.done = { exitCode };
    for (const client of job.sseClients) { sseSend(client, "done", { exitCode }); client.end(); }
    job.sseClients.clear();
  }
and the GET /api/events/:jobId route:
  sseHeaders(res);
  for (const line of job.lines.slice(-250)) sseSend(res, "log", { line });
  if (job.done) { sseSend(res, "done", { exitCode: job.done.exitCode }); return res.end(); }
  job.sseClients.add(res);
  req.on("close", () => job.sseClients.delete(res));

We model one job.  Listeners (SSE response objects) are identified by
natural numbers; each listener's delivered event sequence is recorded in
the received map. -/

/-- An SSE event sent to a listener. -/
inductive Ev where
  | log (line : String)
  | done (exitCode : Int)
deriving DecidableEq, Repr

structure JobState where
  lines : List String
  clients : List Nat
  done : Option Int
  received : Nat → List Ev

/-- The log-cap step of jobAppend: push, then splice away the oldest
entries whenever more than 2000 lines are retained. -/
def capLines (ls : List String) : List String :=
  if 2000 < ls.length then ls.drop (ls.length - 2000) else ls

def jobAppend (s : JobState) (line : String) : JobState :=
  { s with
    lines := capLines (s.lines ++ [line]),
    received := fun c =>
      if c ∈ s.clients then s.received c ++ [Ev.log line] else s.received c }

def jobDone (s : JobState) (code : Int) : JobState :=
  { s with
    done := some code,
    received := fun c =>
      if c ∈ s.clients then s.received c ++ [Ev.done code] else s.received c,
    clients := [] }

/-- The GET /api/events route: replay the tail (slice(-250)), then either
deliver the terminal event immediately (already-done job) or register the
listener.  A JS Set add is idempotent, hence the membership test. -/
def attachListener (s : JobState) (c : Nat) : JobState :=
  let replay := (s.lines.drop (s.lines.length - 250)).map Ev.log
  match s.done with
  | some code =>
    { s with received := fun d =>
        if d = c then s.received d ++ replay ++ [Ev.done code] else s.received d }
  | none =>
    { s with
      received := fun d => if d = c then s.received d ++ replay else s.received d,
      clients := if c ∈ s.clients then s.clients else s.clients ++ [c] }

/-- req.on("close") handler: remove the listener from the set. -/
def detachListener (s : JobState) (c : Nat) : JobState :=
  { s with clients := s.clients.filter (fun d => d ≠ c) }

inductive Op where
  | append (line : String)
  | complete (code : Int)
  | attach (c : Nat)
  | detach (c : Nat)
deriving DecidableEq

def applyOp (s : JobState) : Op → JobState
  | .append l => jobAppend s l
  | .complete k => jobDone s k
  | .attach c => attachListener s c
  | .detach c => detachListener s c

def runOps (s : JobState) (ops : List Op) : JobState := ops.foldl applyOp s

def initJob : JobState :=
  { lines := [], clients := [], done := none, received := fun _ => [] }

/-- Is an event a terminal ("done") event? -/
def isDoneEv : Ev → Bool
  | .done _ => true
  | .log _ => false

/-- Number of terminal events in a delivered sequence. -/
def countDone (l : List Ev) : Nat := (l.filter isDoneEv).length

/-- The combined registry invariant: while no terminal event has occurred
nobody has received one; once terminal, the listener set is empty; and
registered listeners have never received a terminal event. -/
def JobInv (s : JobState) : Prop :=
  (s.done = none → ∀ c, countDone (s.received c) = 0) ∧
  (s.done ≠ none → s.clients = []) ∧
  (∀ c ∈ s.clients, countDone (s.received c) = 0)

/-- A concrete non-terminal job holding 251 lines, used as witness input. -/
def sampleJob251 : JobState :=
  { lines := (List.range 251).map (fun i => toString i),
    clients := [],
    done := none,
    received := fun _ => [] }

/-! ## POST /api/download: argument construction and control flow

Source (createAppServer): the handler validates the body, creates and
registers a job, builds the yt-dlp argument list, in bulk mode writes a
temporary id-list file, validates cookiesFromBrowser, then spawns.  The
spawn is wrapped in try/catch; callbacks on the child do cleanup:

  const validIds = ids.filter(isValidYtId);
  const isBulk = validIds.length > 0;
  if (!isBulk && !url) return badRequest(res, "Missing url");
  ... jobs.set(jobId, job); ... args = ["-i","--yes-playlist","--newline",
    "--no-warnings","--download-archive",archivePath,"-P",jobDir,"-o",outputTemplate];
  if (mp3) args.push("--extract-audio","--audio-format","mp3");
  else args.push("--merge-output-format","mp4");
  if (requestedQuality && Number.isFinite(requestedQuality)) {
    const h = Math.floor(requestedQuality);
    args.push("-f", "bestvideo[height<=" + h + "]+bestaudio/best[height<=" + h + "]"); }
  if (isBulk) { tmpListPath = ...; fs.writeFileSync(tmpListPath, ...); args.push("-a", tmpListPath); }
  else args.push(url);
  if (cookiesFromBrowser) {
    if (!["chrome","edge","firefox"].includes(cookiesFromBrowser))
      return badRequest(res, "cookiesFromBrowser must be one of: chrome, edge, firefox");
    args.unshift("--cookies-from-browser", cookiesFromBrowser); }
  try { child = spawnYtDlp(args, ...); }
  catch (e) { unlink tmp; jobAppend(fail line); jobDone(jobId,-1);
    return json(res,200,{jobId,count}); }
  child.on("error", () => { unlink tmp; jobAppend(err line); jobDone(jobId,-1); });
  child.on("close", (code) => { unlink tmp; jobDone(jobId, typeof code === "number" ? code : -1); });
  return json(res, 200, { jobId, count, downloadsDir: jobDir });

The request body fields are modelled after parsing; the handler reads
ids, url, quality, mp3 and cookiesFromBrowser (it never reads a
videoOnly field, which we keep in the model to show it is ignored).  The
process is modelled by its one terminal outcome: a synchronous spawn
throw, a post-launch error event, or a close event. -/

def isValidYtId (id : String) : Bool :=
  id.length == 11 && id.data.all (fun c => c.isAlphanum || c = '_' || c = '-')

def outputTemplate : String := "%(upload_date)s - %(title)s [%(id)s].%(ext)s"

def buildVideoUrlFromId (id : String) : String :=
  "https://www.youtube.com/watch?v=" ++ id

inductive ProcTerm where
  | errorEvt (code msg : String)
  | closeEvt (code : Option Int)
deriving DecidableEq, Repr

inductive SpawnOutcome where
  | throwSync (msg : String)
  | launched (term : ProcTerm)
deriving DecidableEq, Repr

structure DlRequest where
  ids : List String
  url : String
  quality : Option Int
  mp3 : Bool
  videoOnly : Bool
  cookiesFromBrowser : Option String
deriving DecidableEq, Repr

/-- Observable outcome of one POST /api/download request: the HTTP reply,
the registry/job effects, the constructed argument list and the
temporary id-list file effects. -/
structure DlResult where
  status : Nat
  errorMsg : Option String
  jobCreated : Bool
  args : List String
  tmpWritten : Bool
  tmpUnlinks : Nat
  jobLog : List String
  jobExit : Option Int
  responseHasJobId : Bool
  count : Nat
deriving DecidableEq, Repr

/-- The spawn call and the child handlers (try/catch, error, close). -/
def launchOutcome (ytDlpCommand : String) (isBulk : Bool) (count : Nat)
    (args : List String) (sp : SpawnOutcome) : DlResult :=
  match sp with
  | .throwSync msg =>
    { status := 200, errorMsg := none, jobCreated := true, args := args,
      tmpWritten := isBulk, tmpUnlinks := if isBulk then 1 else 0,
      jobLog := ["Failed to start yt-dlp (" ++ ytDlpCommand ++ "). Set YTDLP_BIN to full path. " ++ msg],
      jobExit := some (-1), responseHasJobId := true, count := count }
  | .launched (.errorEvt code msg) =>
    { status := 200, errorMsg := none, jobCreated := true, args := args,
      tmpWritten := isBulk, tmpUnlinks := if isBulk then 1 else 0,
      jobLog := ["yt-dlp spawn error: " ++ code ++ " " ++ msg],
      jobExit := some (-1), responseHasJobId := true, count := count }
  | .launched (.closeEvt code) =>
    { status := 200, errorMsg := none, jobCreated := true, args := args,
      tmpWritten := isBulk, tmpUnlinks := if isBulk then 1 else 0,
      jobLog := [],
      jobExit := some (match code with | some n => n | none => -1),
      responseHasJobId := true, count := count }

def downloadHandler (ytDlpCommand baseDir tmpDir jobId : String)
    (req : DlRequest) (sp : SpawnOutcome) : DlResult :=
  let validIds := req.ids.filter isValidYtId
  let isBulk := !validIds.isEmpty
  if !isBulk && req.url == "" then
    { status := 400, errorMsg := some "Missing url", jobCreated := false, args := [],
      tmpWritten := false, tmpUnlinks := 0, jobLog := [], jobExit := none,
      responseHasJobId := false, count := 0 }
  else
    let jobDir := baseDir ++ "/ytdlp-ui/" ++ jobId
    let archivePath := baseDir ++ "/ytdlp-ui/.ytdlp-archive.txt"
    let args0 : List String :=
      ["-i", "--yes-playlist", "--newline", "--no-warnings",
       "--download-archive", archivePath, "-P", jobDir, "-o", outputTemplate]
    let args1 := args0 ++ (if req.mp3 then ["--extract-audio", "--audio-format", "mp3"]
      else ["--merge-output-format", "mp4"])
    let args2 := args1 ++ (match req.quality with
      | some q =>
        if q ≠ 0 then
          ["-f", "bestvideo[height<=" ++ toString q ++ "]+bestaudio/best[height<=" ++
            toString q ++ "]"]
        else []
      | none => [])
    let tmpListPath := tmpDir ++ "/ytdlp-ui-" ++ jobId ++ ".txt"
    let args3 := if isBulk then args2 ++ ["-a", tmpListPath] else args2 ++ [req.url]
    let count := if isBulk then validIds.length else 1
    match req.cookiesFromBrowser with
    | some b =>
      if ["chrome", "edge", "firefox"].contains b then
        launchOutcome ytDlpCommand isBulk count (["--cookies-from-browser", b] ++ args3) sp
      else
        { status := 400,
          errorMsg := some "cookiesFromBrowser must be one of: chrome, edge, firefox",
          jobCreated := true, args := args3, tmpWritten := isBulk, tmpUnlinks := 0,
          jobLog := [], jobExit := none, responseHasJobId := false, count := 0 }
    | none => launchOutcome ytDlpCommand isBulk count args3 sp

/-- The cookie-source validation predicate of the handler. -/
def cookieOk (req : DlRequest) : Bool :=
  match req.cookiesFromBrowser with
  | none => true
  | some b => ["chrome", "edge", "firefox"].contains b

/-- Does pat occur as a contiguous substring? -/
def hasSub (pat : List Char) : List Char → Bool
  | [] => pat.isEmpty
  | c :: rest => pat.isPrefixOf (c :: rest) || hasSub pat rest

/-- The C5 scenario request: videoOnly true, quality 720 (mp3 absent). -/
def req720 : DlRequest :=
  { ids := [], url := "https://www.youtube.com/watch?v=f4g1xtyY3uo",
    quality := some 720, mp3 := false, videoOnly := true, cookiesFromBrowser := none }

/-- A bulk request (one valid 11-character id) with an invalid cookie
source. -/
def reqBulkBadCookie : DlRequest :=
  { ids := ["f4g1xtyY3uo"], url := "", quality := none, mp3 := false, videoOnly := false,
    cookiesFromBrowser := some "safari" }

/-- A bulk request (one valid 11-character id) with no cookie source. -/
def reqBulkNoCookie : DlRequest :=
  { ids := ["f4g1xtyY3uo"], url := "", quality := none, mp3 := false, videoOnly := false,
    cookiesFromBrowser := none }

/-! ## GET /api/files/:jobId

Source:
  const job = jobs.get(jobId);
  if (!job) return badRequest(res, "Unknown jobId");
  const dir = job.downloadsDir;
  if (!dir) return json(res, 200, { files: [] });
  let files = [];
  try { files = fs.readdirSync(dir, ...).filter(isFile).map(name); }
  catch { files = []; }
  return json(res, 200, { files,
    downloadUrls: files.map((f) => "/api/file/" + jobId + "/" + encodeURIComponent(f)) });

The registry is modelled as an association list from job id to the job's
downloadsDir (None when unset); the readdir outcome is passed in as
Option (none models the catch branch). -/

def isUnreservedUri (c : Char) : Bool :=
  c.isAlphanum || c = '-' || c = '_' || c = '.' || c = '!' || c = '~' ||
  c = '*' || c = '\'' || c = '(' || c = ')'

def hexDigitChar (n : Nat) : Char :=
  if n < 10 then Char.ofNat (48 + n) else Char.ofNat (55 + n)

/-- Percent-encoding of one character (UTF-8 multi-byte expansion of
non-ASCII characters is elided; no claim evaluates it on non-ASCII). -/
def percentEncodeChar (c : Char) : List Char :=
  if isUnreservedUri c then [c]
  else if c.toNat < 128 then ['%', hexDigitChar (c.toNat / 16), hexDigitChar (c.toNat % 16)]
  else [c]

def encodeURIComponent (s : String) : String :=
  String.mk ((s.data.map percentEncodeChar).flatten)

structure FilesResp where
  status : Nat
  error : Option String
  files : Option (List String)
  downloadUrls : Option (List String)
deriving DecidableEq, Repr

def findJob : List (String × Option String) → String → Option (Option String)
  | [], _ => none
  | (k, d) :: rest, jobId => if k = jobId then some d else findJob rest jobId

def filesRoute (jobs : List (String × Option String)) (jobId : String)
    (readdirResult : Option (List String)) : FilesResp :=
  match findJob jobs jobId with
  | none => { status := 400, error := some "Unknown jobId", files := none, downloadUrls := none }
  | some none => { status := 200, error := none, files := some [], downloadUrls := none }
  | some (some _dir) =>
    let files := match readdirResult with
      | none => []
      | some fs => fs
    { status := 200, error := none, files := some files,
      downloadUrls := some (files.map (fun f =>
        "/api/file/" ++ jobId ++ "/" ++ encodeURIComponent f)) }

/-! ## Line framing

Two pipelines in the source split process output into lines.

The /api/list stdout handler keeps a cross-chunk buffer:
  let buffer = "";
  child.stdout.on("data", (chunk) => {
    buffer += chunk;
    const lines = buffer.split(/\r?\n/);
    buffer = lines.pop() || "";
    for (const line of lines) { ... } });

The POST /api/download output handler splits every chunk on its own:
  const onData = (chunk) => {
    const lines = String(chunk).split(/\r?\n/).filter(Boolean);
    for (const line of lines) jobAppend(jobId, line); };

splitRN is JavaScript's String.split with the /\r?\n/ separator: a line
feed always ends a piece, a carriage return only together with a
following line feed (a lone carriage return is ordinary text). -/

def splitRN : List Char → List (List Char)
  | [] => [[]]
  | '\n' :: rest => [] :: splitRN rest
  | '\r' :: '\n' :: rest => [] :: splitRN rest
  | c :: rest =>
    match splitRN rest with
    | [] => [[c]]
    | h :: t => (c :: h) :: t

/-- lines.pop() || "" of the split result. -/
def lastPart : List (List Char) → List Char
  | [] => []
  | [x] => x
  | _ :: xs => lastPart xs

/-- One step of the buffered /api/list framer: append the chunk to the
buffer, split, keep the complete pieces, hold back the trailing piece. -/
def listFeed (st : List (List Char) × List Char) (chunk : String) :
    List (List Char) × List Char :=
  let parts := splitRN (st.2 ++ chunk.data)
  (st.1 ++ parts.dropLast, lastPart parts)

/-- The complete lines the /api/list handler processes for a chunk
sequence, starting from the empty buffer. -/
def listFramedLines (chunks : List String) : List (List Char) :=
  (chunks.foldl listFeed ([], [])).1

def concatChunks (chunks : List String) : List Char :=
  (chunks.map String.data).flatten

/-- The job-log pipeline: each chunk split on its own, empty pieces
discarded by filter(Boolean), every piece appended to the job log. -/
def chunkLogLines (chunk : String) : List String :=
  ((splitRN chunk.data).filter (fun l => !l.isEmpty)).map String.mk

def jobLogLinesOfChunks (chunks : List String) : List String :=
  (chunks.map chunkLogLines).flatten

lemma withinDir_refl (d : List String) : withinDir d d = true := by
  induction d with
  | nil => rfl
  | cons x xs ih => simp [withinDir, ih]

lemma withinDir_append (d e : List String) : withinDir d (d ++ e) = true := by
  induction d with
  | nil => rfl
  | cons x xs ih => simp [withinDir, ih]

/-- The sanitized name never contains a path separator. -/
lemma safeBasename_no_sep (name : String) :
    ∀ c ∈ (safeBasename name).data, c ≠ '/' ∧ c ≠ '\\' := by
  intro c hc
  simp only [safeBasename, String.data] at hc
  rcases List.mem_map.mp hc with ⟨a, _, rfl⟩
  by_cases h : isReplacedChar a = true
  · simp [sanitizeChar, h]
  · simp only [Bool.not_eq_true] at h
    simp only [sanitizeChar, h, Bool.false_eq_true, if_false]
    constructor
    · rintro rfl; revert h; decide
    · rintro rfl; revert h; decide

/-- C1 (counterexample part, to be referenced from RESULTS):
the request name ".." sanitizes to itself and resolves to the parent of
the job directory, which is not inside the job directory. -/
theorem c1_counterexample :
    resolveRequestPath ["home", "user", "Downloads", "ytdlp-ui", "a1b2c3d4"] ".." =
      ["home", "user", "Downloads", "ytdlp-ui"] ∧
    withinDir ["home", "user", "Downloads", "ytdlp-ui", "a1b2c3d4"]
      (resolveRequestPath ["home", "user", "Downloads", "ytdlp-ui", "a1b2c3d4"] "..") = false := by
  constructor
  · rfl
  · rfl

/-- C1 (amended): for every requested name whose sanitized form is not
"..", the path resolved by the GET /api/file route lies inside the job's
output directory.  The name ".." is the single escaping form, and it
resolves exactly one level up (shown separately in the counterexample). -/
theorem c1_file_route_confined (dir : List String) (name : String)
    (h : safeBasename name ≠ "..") :
    withinDir dir (resolveRequestPath dir name) = true := by
  unfold resolveRequestPath
  by_cases h0 : safeBasename name = ""
  · simp [h0, withinDir_refl]
  · by_cases h1 : safeBasename name = "."
    · simp [h0, h1, withinDir_refl]
    · simp [h0, h1, h, withinDir_append]

/-- Witness for c1_file_route_confined: a classic traversal attempt is
confined to the job directory. -/
theorem c1_file_route_confined_witness :
    safeBasename "../../../etc/passwd" ≠ ".." ∧
    withinDir ["home", "user", "Downloads", "ytdlp-ui", "a1b2c3d4"]
      (resolveRequestPath ["home", "user", "Downloads", "ytdlp-ui", "a1b2c3d4"]
        "../../../etc/passwd") = true :=
  ⟨by decide, c1_file_route_confined _ _ (by decide)⟩

lemma countDone_append (a b : List Ev) :
    countDone (a ++ b) = countDone a + countDone b := by
  simp [countDone, List.filter_append]

lemma countDone_single_log (x : String) : countDone [Ev.log x] = 0 := rfl

lemma countDone_single_done (k : Int) : countDone [Ev.done k] = 1 := rfl

lemma countDone_map_log (ls : List String) : countDone (ls.map Ev.log) = 0 := by
  induction ls with
  | nil => rfl
  | cons x xs ih => simp [countDone, List.filter_cons, isDoneEv]

lemma jobInv_init : JobInv initJob := by
  refine ⟨fun _ c => rfl, fun h => absurd rfl h, fun c hc => absurd hc (by simp [initJob])⟩

lemma jobInv_step (s : JobState) (op : Op) (h : JobInv s) : JobInv (applyOp s op) := by
  obtain ⟨h1, h2, h3⟩ := h
  cases op with
  | append l =>
    refine ⟨fun hd c => ?_, fun hd => ?_, fun c hc => ?_⟩
    · simp only [applyOp, jobAppend] at hd ⊢
      by_cases hc : c ∈ s.clients
      · rw [if_pos hc, countDone_append, h1 hd c, countDone_single_log]
      · rw [if_neg hc, h1 hd c]
    · simp only [applyOp, jobAppend] at hd ⊢
      exact h2 hd
    · simp only [applyOp, jobAppend] at hc ⊢
      by_cases hm : c ∈ s.clients
      · rw [if_pos hm, countDone_append, h3 c hc, countDone_single_log]
      · rw [if_neg hm, h3 c hc]
  | complete k =>
    refine ⟨fun hd => ?_, fun _ => rfl, fun c hc => ?_⟩
    · simp [applyOp, jobDone] at hd
    · simp [applyOp, jobDone] at hc
  | attach c =>
    cases hd : s.done with
    | some k =>
      have hcl : s.clients = [] := h2 (by simp [hd])
      refine ⟨fun hn => ?_, fun _ => ?_, fun d hdc => ?_⟩
      · simp [applyOp, attachListener, hd] at hn
      · simp [applyOp, attachListener, hd, hcl]
      · simp [applyOp, attachListener, hd, hcl] at hdc
    | none =>
      refine ⟨fun _ d => ?_, fun hn => ?_, fun d hdc => ?_⟩
      · simp only [applyOp, attachListener, hd]
        by_cases hdq : d = c
        · rw [if_pos hdq, countDone_append, h1 hd d, countDone_map_log]
        · rw [if_neg hdq]
          exact h1 hd d
      · simp [applyOp, attachListener, hd] at hn
      · simp only [applyOp, attachListener, hd] at hdc ⊢
        by_cases hdq : d = c
        · rw [if_pos hdq, countDone_append, hdq, h1 hd c, countDone_map_log]
        · rw [if_neg hdq]
          have hmem : d ∈ s.clients := by
            by_cases hc : c ∈ s.clients
            · simpa [hc] using hdc
            · simp only [if_neg hc, List.mem_append, List.mem_singleton] at hdc
              exact hdc.resolve_right hdq
          exact h3 d hmem
  | detach c =>
    refine ⟨fun hd d => h1 hd d, fun hd => ?_, fun d hdc => ?_⟩
    · simp only [applyOp, detachListener] at hd ⊢
      simp [h2 hd]
    · simp only [applyOp, detachListener] at hdc ⊢
      exact h3 d (List.mem_of_mem_filter hdc)

lemma jobInv_run (s : JobState) (ops : List Op) (h : JobInv s) : JobInv (runOps s ops) := by
  induction ops generalizing s with
  | nil => exact h
  | cons op ops ih => exact ih _ (jobInv_step s op h)

/-- Once a job is terminal with an empty listener set, no later operation
(that does not attach this very listener again) changes the listener's
delivered events, re-populates the listener set, or makes the job
non-terminal. -/
lemma post_done_stable (s : JobState) (k0 : Int) (hd : s.done = some k0)
    (hcl : s.clients = []) (ops : List Op) (c : Nat) (hno : Op.attach c ∉ ops) :
    (runOps s ops).received c = s.received c ∧ (runOps s ops).clients = [] ∧
      (runOps s ops).done ≠ none := by
  induction ops generalizing s k0 with
  | nil => exact ⟨rfl, hcl, by simp [runOps, hd]⟩
  | cons op ops ih =>
    have hno' : Op.attach c ∉ ops := fun hm => hno (List.mem_cons_of_mem _ hm)
    have hne : op ≠ Op.attach c := fun he => hno (he ▸ List.mem_cons_self _ _)
    have hrun : runOps s (op :: ops) = runOps (applyOp s op) ops := rfl
    cases op with
    | append l =>
      have h := ih (applyOp s (.append l)) k0 hd (by simp [applyOp, jobAppend, hcl]) hno'
      rw [hrun]
      refine ⟨?_, h.2.1, h.2.2⟩
      rw [h.1]
      simp [applyOp, jobAppend, hcl]
    | complete k =>
      have h := ih (applyOp s (.complete k)) k rfl rfl hno'
      rw [hrun]
      refine ⟨?_, h.2.1, h.2.2⟩
      rw [h.1]
      simp [applyOp, jobDone, hcl]
    | attach d =>
      have hdc : d ≠ c := fun he => hne (by rw [he])
      have h := ih (applyOp s (.attach d)) k0 (by simp [applyOp, attachListener, hd])
        (by simp [applyOp, attachListener, hd, hcl]) hno'
      rw [hrun]
      refine ⟨?_, h.2.1, h.2.2⟩
      rw [h.1]
      simp [applyOp, attachListener, hd, Ne.symm hdc]
    | detach d =>
      have h := ih (applyOp s (.detach d)) k0 (by simp [applyOp, detachListener, hd])
        (by simp [applyOp, detachListener, hcl]) hno'
      rw [hrun]
      exact ⟨by rw [h.1]; simp [applyOp, detachListener], h.2.1, h.2.2⟩

/-- C2: once jobDone runs for a job, every listener registered at that
moment receives the terminal event with that exit code as its final
event (its delivered sequence is exactly what it had so far, which
contains no terminal event, followed by one done event), and after the
completion the listener set stays empty at every later point, so lines
appended after completion are broadcast to nobody. -/
theorem c2_terminal_event_last_and_unique (ops1 ops2 : List Op) (n : Nat) (k : Int) (c : Nat)
    (hmem : c ∈ (runOps initJob ops1).clients)
    (hno : Op.attach c ∉ ops2) :
    (runOps initJob (ops1 ++ Op.complete k :: ops2)).received c =
        (runOps initJob ops1).received c ++ [Ev.done k] ∧
    countDone ((runOps initJob ops1).received c) = 0 ∧
    countDone ((runOps initJob (ops1 ++ Op.complete k :: ops2)).received c) = 1 ∧
    (runOps initJob (ops1 ++ Op.complete k :: ops2.take n)).clients = [] := by
  obtain ⟨h1, h2, h3⟩ := jobInv_run initJob ops1 jobInv_init
  have hcount : countDone ((runOps initJob ops1).received c) = 0 := h3 c hmem
  have hrc : (applyOp (runOps initJob ops1) (.complete k)).received c =
      (runOps initJob ops1).received c ++ [Ev.done k] := by
    simp [applyOp, jobDone, hmem]
  have hsplit : ∀ tail : List Op, runOps initJob (ops1 ++ Op.complete k :: tail) =
      runOps (applyOp (runOps initJob ops1) (.complete k)) tail := by
    intro tail
    simp [runOps, List.foldl_append]
  have hstable := post_done_stable (applyOp (runOps initJob ops1) (.complete k)) k
    rfl rfl ops2 c hno
  have hrcfull : (runOps initJob (ops1 ++ Op.complete k :: ops2)).received c =
      (runOps initJob ops1).received c ++ [Ev.done k] := by
    rw [hsplit ops2, hstable.1, hrc]
  refine ⟨hrcfull, hcount, ?_, ?_⟩
  · rw [hrcfull, countDone_append, hcount, countDone_single_done]
  · have hnotake : Op.attach c ∉ ops2.take n :=
      fun hm => hno (List.mem_of_mem_take hm)
    have hstABLE := post_done_stable (applyOp (runOps initJob ops1) (.complete k)) k
      rfl rfl (ops2.take n) c hnotake
    rw [hsplit (ops2.take n)]
    exact hstABLE.2.1

/-- Witness for c2_terminal_event_last_and_unique at a concrete run. -/
theorem c2_terminal_event_last_and_unique_witness :
    7 ∈ (runOps initJob [Op.attach 7, Op.append "a"]).clients ∧
    Op.attach 7 ∉ [Op.append "b", Op.attach 8] ∧
    ((runOps initJob
        ([Op.attach 7, Op.append "a"] ++ Op.complete 0 :: [Op.append "b", Op.attach 8])).received 7 =
      (runOps initJob [Op.attach 7, Op.append "a"]).received 7 ++ [Ev.done 0] ∧
    countDone ((runOps initJob [Op.attach 7, Op.append "a"]).received 7) = 0 ∧
    countDone ((runOps initJob
        ([Op.attach 7, Op.append "a"] ++ Op.complete 0 :: [Op.append "b", Op.attach 8])).received 7) = 1 ∧
    (runOps initJob
        ([Op.attach 7, Op.append "a"] ++ Op.complete 0 :: [Op.append "b", Op.attach 8].take 2)).clients = []) :=
  ⟨by decide, by decide,
    c2_terminal_event_last_and_unique [Op.attach 7, Op.append "a"] [Op.append "b", Op.attach 8]
      2 0 7 (by decide) (by decide)⟩

lemma capLines_eq (ls : List String) : capLines ls = ls.drop (ls.length - 2000) := by
  unfold capLines
  split
  · rfl
  · next h =>
    have : ls.length - 2000 = 0 := by omega
    rw [this, List.drop_zero]

lemma capLines_length (ls : List String) :
    (capLines ls).length = min ls.length 2000 := by
  rw [capLines_eq, List.length_drop]
  omega

/-- Dropping down to the last 2000 elements and then appending more is
the same as appending first and then keeping the last 2000. -/
lemma drop_cap_append (x L : List String) :
    ((x.drop (x.length - 2000)) ++ L).drop
        (((x.drop (x.length - 2000)).length + L.length) - 2000) =
      (x ++ L).drop ((x.length + L.length) - 2000) := by
  by_cases hx : x.length ≤ 2000
  · have : x.length - 2000 = 0 := by omega
    rw [this, List.drop_zero]
  · have hlen : (x.drop (x.length - 2000)).length = 2000 := by
      rw [List.length_drop]; omega
    have htk : (x.take (x.length - 2000)).length = x.length - 2000 := by
      rw [List.length_take]; omega
    have hsplitx : x ++ L = x.take (x.length - 2000) ++ (x.drop (x.length - 2000) ++ L) := by
      rw [← List.append_assoc, List.take_append_drop]
    rw [hsplitx,
      show (x.length + L.length) - 2000 =
        (x.take (x.length - 2000)).length +
          (((x.drop (x.length - 2000)).length + L.length) - 2000) from by
        rw [htk, hlen]; omega,
      List.drop_append]

/-- Feeding a sequence of appends through the registry keeps exactly the
last 2000 lines of everything appended so far. -/
lemma runOps_append_lines (L : List String) (s : JobState)
    (hs : s.lines.length ≤ 2000) :
    (runOps s (L.map Op.append)).lines =
      (s.lines ++ L).drop ((s.lines.length + L.length) - 2000) := by
  induction L generalizing s with
  | nil =>
    have : s.lines.length - 2000 = 0 := by omega
    simp [runOps, this]
  | cons l L ih =>
    have hstep : runOps s ((l :: L).map Op.append) =
        runOps (applyOp s (.append l)) (L.map Op.append) := rfl
    rw [hstep]
    have hle : (applyOp s (.append l)).lines.length ≤ 2000 := by
      simp only [applyOp, jobAppend, capLines_length]
      omega
    rw [ih _ hle]
    have hlines : (applyOp s (.append l)).lines =
        (s.lines ++ [l]).drop ((s.lines ++ [l]).length - 2000) := by
      simp [applyOp, jobAppend, capLines_eq]
    rw [hlines]
    have := drop_cap_append (s.lines ++ [l]) L
    rw [List.length_append] at this ⊢
    simp only [List.length_singleton] at this ⊢
    rw [List.append_assoc] at this
    simpa [Nat.add_assoc, Nat.add_comm 1 L.length] using this

/-- C3: after appending a sequence of more than 2000 lines to a fresh
job, the retained log is exactly the last 2000 appended lines in order,
and at no intermediate point (after any number of appends) does the
retained log exceed 2000 lines. -/
theorem c3_log_keeps_last_2000 (L : List String) (n : Nat)
    (_h : 2000 < L.length) :
    (runOps initJob (L.map Op.append)).lines = L.drop (L.length - 2000) ∧
    (runOps initJob ((L.take n).map Op.append)).lines.length ≤ 2000 := by
  constructor
  · have h1 := runOps_append_lines L initJob (by simp [initJob])
    rw [h1]
    simp [initJob]
  · have h2 := runOps_append_lines (L.take n) initJob (by simp [initJob])
    rw [h2, List.length_drop]
    simp only [List.length_append]
    omega

/-- Witness for c3_log_keeps_last_2000: 2001 appended lines retain the
last 2000. -/
theorem c3_log_keeps_last_2000_witness :
    2000 < ((List.range 2001).map (fun i => toString i)).length ∧
    ((runOps initJob (((List.range 2001).map (fun i => toString i)).map Op.append)).lines =
      ((List.range 2001).map (fun i => toString i)).drop
        (((List.range 2001).map (fun i => toString i)).length - 2000) ∧
    (runOps initJob ((((List.range 2001).map (fun i => toString i)).take 5).map Op.append)).lines.length ≤ 2000) :=
  ⟨by simp, c3_log_keeps_last_2000 _ 5 (by simp)⟩

/-- C4: attaching a fresh listener to a non-terminal job holding more
than 250 lines delivers exactly the most recent 250 retained lines, in
order (that replayed list has length 250), registers the listener, and a
line broadcast afterwards reaches it strictly after the replay. -/
theorem c4_attach_replays_recent_250 (s : JobState) (c : Nat) (l : String)
    (hd : s.done = none) (hlen : 250 < s.lines.length) (hfresh : s.received c = []) :
    (attachListener s c).received c = (s.lines.drop (s.lines.length - 250)).map Ev.log ∧
    ((s.lines.drop (s.lines.length - 250)).map Ev.log).length = 250 ∧
    c ∈ (attachListener s c).clients ∧
    (applyOp (attachListener s c) (Op.append l)).received c =
      (attachListener s c).received c ++ [Ev.log l] := by
  have hmem : c ∈ (attachListener s c).clients := by
    simp only [attachListener, hd]
    by_cases hc : c ∈ s.clients
    · simp [hc]
    · simp [hc]
  refine ⟨?_, ?_, hmem, ?_⟩
  · simp [attachListener, hd, hfresh]
  · rw [List.length_map, List.length_drop]
    omega
  · simp [applyOp, jobAppend, hmem]

/-- Witness for c4_attach_replays_recent_250 on a job with 251 lines. -/
theorem c4_attach_replays_recent_250_witness :
    sampleJob251.done = none ∧
    250 < sampleJob251.lines.length ∧
    sampleJob251.received 7 = [] ∧
    ((attachListener sampleJob251 7).received 7 =
      (sampleJob251.lines.drop (sampleJob251.lines.length - 250)).map Ev.log ∧
    ((sampleJob251.lines.drop (sampleJob251.lines.length - 250)).map Ev.log).length = 250 ∧
    7 ∈ (attachListener sampleJob251 7).clients ∧
    (applyOp (attachListener sampleJob251 7) (Op.append "x")).received 7 =
      (attachListener sampleJob251 7).received 7 ++ [Ev.log "x"]) :=
  ⟨rfl, by simp [sampleJob251], rfl,
    c4_attach_replays_recent_250 sampleJob251 7 "x" rfl (by simp [sampleJob251]) rfl⟩

/-- C5 (counterexample): for the request with videoOnly true and quality
720, the constructed argument list DOES contain the substring
"+bestaudio" (the handler has no video-only handling), contrary to the
claim. -/
theorem c5_counterexample :
    ((downloadHandler "yt-dlp" "/base" "/tmp" "j1" req720
        (.launched (.closeEvt (some 0)))).args.any
      (fun a => hasSub "+bestaudio".data a.data)) = true := by
  decide

/-- C5 (amended): the handler ignores videoOnly entirely, and the
argument list for the videoOnly/quality-720 request selects
bestvideo[height<=720]+bestaudio/best[height<=720] and remuxes to mp4. -/
theorem c5_videoonly_ignored :
    (∀ (cmd b t j : String) (req : DlRequest) (sp : SpawnOutcome),
      downloadHandler cmd b t j req sp =
        downloadHandler cmd b t j { req with videoOnly := false } sp) ∧
    (downloadHandler "yt-dlp" "/base" "/tmp" "j1" req720
        (.launched (.closeEvt (some 0)))).args =
      ["-i", "--yes-playlist", "--newline", "--no-warnings",
       "--download-archive", "/base/ytdlp-ui/.ytdlp-archive.txt",
       "-P", "/base/ytdlp-ui/j1", "-o", outputTemplate,
       "--merge-output-format", "mp4",
       "-f", "bestvideo[height<=720]+bestaudio/best[height<=720]",
       "https://www.youtube.com/watch?v=f4g1xtyY3uo"] := by
  constructor
  · intro cmd b t j req sp
    cases req
    rfl
  · decide

/-- C6 (counterexample): on the invalid-cookie-source path of a bulk
request the temporary id-list file has been written but is never
unlinked, and the handler answers 400. -/
theorem c6_counterexample :
    (downloadHandler "yt-dlp" "/base" "/tmp" "j2" reqBulkBadCookie
        (.launched (.closeEvt (some 0)))).tmpWritten = true ∧
    (downloadHandler "yt-dlp" "/base" "/tmp" "j2" reqBulkBadCookie
        (.launched (.closeEvt (some 0)))).tmpUnlinks = 0 ∧
    (downloadHandler "yt-dlp" "/base" "/tmp" "j2" reqBulkBadCookie
        (.launched (.closeEvt (some 0)))).status = 400 := by
  decide

/-- C6 (amended): for every bulk request that passes cookie validation,
the temporary id-list file is written and unlinked exactly once on every
process outcome (synchronous spawn throw, post-launch error event, or
close event); the uncovered path is the invalid-cookie 400 shown in the
counterexample. -/
theorem c6_tmpfile_cleanup (cmd b t j : String) (req : DlRequest) (sp : SpawnOutcome)
    (hbulk : req.ids.filter isValidYtId ≠ [])
    (hck : cookieOk req = true) :
    (downloadHandler cmd b t j req sp).tmpWritten = true ∧
    (downloadHandler cmd b t j req sp).tmpUnlinks = 1 := by
  have hE : (req.ids.filter isValidYtId).isEmpty = false := by
    cases hF : req.ids.filter isValidYtId with
    | nil => exact absurd hF hbulk
    | cons a l => rfl
  obtain ⟨ids, url, qual, mp3f, vo, cookies⟩ := req
  cases cookies with
  | none =>
    cases sp with
    | throwSync msg => simp [downloadHandler, launchOutcome, hE]
    | launched term => cases term <;> simp [downloadHandler, launchOutcome, hE]
  | some bro =>
    have hck2 : bro = "chrome" ∨ bro = "edge" ∨ bro = "firefox" := by
      simpa [cookieOk] using hck
    cases sp with
    | throwSync msg => simp [downloadHandler, launchOutcome, hE, hck2]
    | launched term => cases term <;> simp [downloadHandler, launchOutcome, hE, hck2]

/-- Witness for c6_tmpfile_cleanup: a bulk request with no cookie source
whose spawn throws synchronously. -/
theorem c6_tmpfile_cleanup_witness :
    reqBulkNoCookie.ids.filter isValidYtId ≠ [] ∧
    cookieOk reqBulkNoCookie = true ∧
    ((downloadHandler "yt-dlp" "/base" "/tmp" "j3" reqBulkNoCookie
        (.throwSync "spawn yt-dlp ENOENT")).tmpWritten = true ∧
    (downloadHandler "yt-dlp" "/base" "/tmp" "j3" reqBulkNoCookie
        (.throwSync "spawn yt-dlp ENOENT")).tmpUnlinks = 1) :=
  ⟨by decide, by decide,
    c6_tmpfile_cleanup "yt-dlp" "/base" "/tmp" "j3" reqBulkNoCookie
      (.throwSync "spawn yt-dlp ENOENT") (by decide) (by decide)⟩

/-- C8: when the spawn call throws synchronously on an accepted request,
the handler still answers 200 with the job id, appends a descriptive
failure line to the job log, and immediately marks the job terminal with
the sentinel exit code -1; the failure never surfaces as an HTTP error. -/
theorem c8_sync_launch_failure_is_soft (cmd b t j msg : String) (req : DlRequest)
    (hacc : req.ids.filter isValidYtId ≠ [] ∨ req.url ≠ "")
    (hck : cookieOk req = true) :
    (downloadHandler cmd b t j req (.throwSync msg)).status = 200 ∧
    (downloadHandler cmd b t j req (.throwSync msg)).responseHasJobId = true ∧
    (downloadHandler cmd b t j req (.throwSync msg)).jobExit = some (-1) ∧
    (downloadHandler cmd b t j req (.throwSync msg)).jobLog =
      ["Failed to start yt-dlp (" ++ cmd ++ "). Set YTDLP_BIN to full path. " ++ msg] ∧
    (downloadHandler cmd b t j req (.throwSync msg)).errorMsg = none := by
  rcases hacc with hbulk | hurl
  · have hE : (req.ids.filter isValidYtId).isEmpty = false := by
      cases hF : req.ids.filter isValidYtId with
      | nil => exact absurd hF hbulk
      | cons a l => rfl
    cases hcb : req.cookiesFromBrowser with
    | none => simp [downloadHandler, launchOutcome, hcb, hE]
    | some bro =>
      have hck2 : bro = "chrome" ∨ bro = "edge" ∨ bro = "firefox" := by
        simpa [cookieOk, hcb] using hck
      simp [downloadHandler, launchOutcome, hcb, hE, hck2]
  · cases hcb : req.cookiesFromBrowser with
    | none => simp [downloadHandler, launchOutcome, hcb, hurl]
    | some bro =>
      have hck2 : bro = "chrome" ∨ bro = "edge" ∨ bro = "firefox" := by
        simpa [cookieOk, hcb] using hck
      simp [downloadHandler, launchOutcome, hcb, hurl, hck2]

/-- Witness for c8_sync_launch_failure_is_soft: single-url request whose
spawn throws. -/
theorem c8_sync_launch_failure_is_soft_witness :
    (req720.ids.filter isValidYtId ≠ [] ∨ req720.url ≠ "") ∧
    cookieOk req720 = true ∧
    ((downloadHandler "yt-dlp" "/base" "/tmp" "j4" req720
        (.throwSync "spawn yt-dlp ENOENT")).status = 200 ∧
    (downloadHandler "yt-dlp" "/base" "/tmp" "j4" req720
        (.throwSync "spawn yt-dlp ENOENT")).responseHasJobId = true ∧
    (downloadHandler "yt-dlp" "/base" "/tmp" "j4" req720
        (.throwSync "spawn yt-dlp ENOENT")).jobExit = some (-1) ∧
    (downloadHandler "yt-dlp" "/base" "/tmp" "j4" req720
        (.throwSync "spawn yt-dlp ENOENT")).jobLog =
      ["Failed to start yt-dlp (" ++ "yt-dlp" ++ "). Set YTDLP_BIN to full path. " ++
        "spawn yt-dlp ENOENT"] ∧
    (downloadHandler "yt-dlp" "/base" "/tmp" "j4" req720
        (.throwSync "spawn yt-dlp ENOENT")).errorMsg = none) :=
  ⟨Or.inr (by decide), by decide,
    c8_sync_launch_failure_is_soft "yt-dlp" "/base" "/tmp" "j4" "spawn yt-dlp ENOENT" req720
      (Or.inr (by decide)) (by decide)⟩

/-- C10: an invalid cookiesFromBrowser value on an otherwise-valid bulk
request yields a 400 response, yet the job has already been created (and
stays registered without ever turning terminal) and the temporary
id-list file has been written and is never unlinked. -/
theorem c10_invalid_cookie_nonatomic (cmd b t j bro : String) (req : DlRequest)
    (sp : SpawnOutcome)
    (hb : req.cookiesFromBrowser = some bro)
    (hbad : (["chrome", "edge", "firefox"].contains bro) = false)
    (hbulk : req.ids.filter isValidYtId ≠ []) :
    (downloadHandler cmd b t j req sp).status = 400 ∧
    (downloadHandler cmd b t j req sp).errorMsg =
      some "cookiesFromBrowser must be one of: chrome, edge, firefox" ∧
    (downloadHandler cmd b t j req sp).jobCreated = true ∧
    (downloadHandler cmd b t j req sp).jobExit = none ∧
    (downloadHandler cmd b t j req sp).tmpWritten = true ∧
    (downloadHandler cmd b t j req sp).tmpUnlinks = 0 := by
  have hE : (req.ids.filter isValidYtId).isEmpty = false := by
    cases hF : req.ids.filter isValidYtId with
    | nil => exact absurd hF hbulk
    | cons a l => rfl
  have hbad2 : ¬(bro = "chrome" ∨ bro = "edge" ∨ bro = "firefox") := by
    simpa using hbad
  simp [downloadHandler, hb, hE, hbad2]

/-- Witness for c10_invalid_cookie_nonatomic: the concrete bulk request
with cookie source "safari". -/
theorem c10_invalid_cookie_nonatomic_witness :
    reqBulkBadCookie.cookiesFromBrowser = some "safari" ∧
    (["chrome", "edge", "firefox"].contains "safari") = false ∧
    reqBulkBadCookie.ids.filter isValidYtId ≠ [] ∧
    ((downloadHandler "yt-dlp" "/base" "/tmp" "j5" reqBulkBadCookie
        (.launched (.closeEvt (some 0)))).status = 400 ∧
    (downloadHandler "yt-dlp" "/base" "/tmp" "j5" reqBulkBadCookie
        (.launched (.closeEvt (some 0)))).errorMsg =
      some "cookiesFromBrowser must be one of: chrome, edge, firefox" ∧
    (downloadHandler "yt-dlp" "/base" "/tmp" "j5" reqBulkBadCookie
        (.launched (.closeEvt (some 0)))).jobCreated = true ∧
    (downloadHandler "yt-dlp" "/base" "/tmp" "j5" reqBulkBadCookie
        (.launched (.closeEvt (some 0)))).jobExit = none ∧
    (downloadHandler "yt-dlp" "/base" "/tmp" "j5" reqBulkBadCookie
        (.launched (.closeEvt (some 0)))).tmpWritten = true ∧
    (downloadHandler "yt-dlp" "/base" "/tmp" "j5" reqBulkBadCookie
        (.launched (.closeEvt (some 0)))).tmpUnlinks = 0) :=
  ⟨rfl, by decide, by decide,
    c10_invalid_cookie_nonatomic "yt-dlp" "/base" "/tmp" "j5" "safari" reqBulkBadCookie
      (.launched (.closeEvt (some 0))) rfl (by decide) (by decide)⟩

/-- C7 (counterexample): for a job id absent from the registry the route
answers 400 with "Unknown jobId", not 200 with empty arrays. -/
theorem c7_counterexample :
    (filesRoute [] "deadbeef" none).status = 400 ∧
    (filesRoute [] "deadbeef" none).error = some "Unknown jobId" := by
  exact ⟨rfl, rfl⟩

/-- C7 (amended): every unknown job id gets the 400 "Unknown jobId"
reply, while a known job whose directory read fails gets 200 with empty
files and downloadUrls arrays. -/
theorem c7_unknown_job_400 (jobs : List (String × Option String)) (jobId : String)
    (dirRes : Option (List String)) (h : findJob jobs jobId = none) :
    ((filesRoute jobs jobId dirRes).status = 400 ∧
     (filesRoute jobs jobId dirRes).error = some "Unknown jobId") ∧
    ((filesRoute [("a1b2", some "/downloads/ytdlp-ui/a1b2")] "a1b2" none).status = 200 ∧
     (filesRoute [("a1b2", some "/downloads/ytdlp-ui/a1b2")] "a1b2" none).files = some [] ∧
     (filesRoute [("a1b2", some "/downloads/ytdlp-ui/a1b2")] "a1b2" none).downloadUrls = some []) := by
  refine ⟨?_, by decide⟩
  simp [filesRoute, h]

/-- Witness for c7_unknown_job_400: the empty registry. -/
theorem c7_unknown_job_400_witness :
    findJob [] "deadbeef" = none ∧
    (((filesRoute [] "deadbeef" none).status = 400 ∧
     (filesRoute [] "deadbeef" none).error = some "Unknown jobId") ∧
    ((filesRoute [("a1b2", some "/downloads/ytdlp-ui/a1b2")] "a1b2" none).status = 200 ∧
     (filesRoute [("a1b2", some "/downloads/ytdlp-ui/a1b2")] "a1b2" none).files = some [] ∧
     (filesRoute [("a1b2", some "/downloads/ytdlp-ui/a1b2")] "a1b2" none).downloadUrls = some [])) :=
  ⟨rfl, c7_unknown_job_400 [] "deadbeef" none rfl⟩

lemma lastPart_cons_ne (x : List Char) (l : List (List Char)) (h : l ≠ []) :
    lastPart (x :: l) = lastPart l := by
  cases l with
  | nil => exact absurd rfl h
  | cons y ys => rfl

lemma lastPart_append_ne (A B : List (List Char)) (h : B ≠ []) :
    lastPart (A ++ B) = lastPart B := by
  induction A with
  | nil => rfl
  | cons a as ih =>
    rw [List.cons_append, lastPart_cons_ne _ _ (by simp [h]), ih]

lemma lastPart_mem (l : List (List Char)) (h : l ≠ []) : lastPart l ∈ l := by
  induction l with
  | nil => exact absurd rfl h
  | cons x xs ih =>
    cases xs with
    | nil => simp [lastPart]
    | cons y ys => rw [lastPart_cons_ne _ _ (by simp)]; exact List.mem_cons_of_mem _ (ih (by simp))

lemma dropLast_cons_ne (x : List Char) (l : List (List Char)) (h : l ≠ []) :
    (x :: l).dropLast = x :: l.dropLast := by
  cases l with
  | nil => exact absurd rfl h
  | cons y ys => rfl

lemma dropLast_append_ne (A B : List (List Char)) (h : B ≠ []) :
    (A ++ B).dropLast = A ++ B.dropLast := by
  induction A with
  | nil => rfl
  | cons a as ih =>
    rw [List.cons_append, dropLast_cons_ne _ _ (by simp [h]), ih, List.cons_append]

lemma splitRN_ne_nil (a : List Char) : splitRN a ≠ [] := by
  induction a using splitRN.induct with
  | case1 => simp [splitRN.eq_1]
  | case2 rest ih => simp [splitRN.eq_2]
  | case3 rest ih => simp [splitRN.eq_3]
  | case4 c rest h1 h2 heq ih => exact absurd heq ih
  | case5 c rest h1 h2 h t heq ih =>
    rw [splitRN.eq_4 c rest h1 h2, heq]
    simp

lemma splitRN_no_newline (a : List Char) : ∀ p ∈ splitRN a, '\n' ∉ p := by
  induction a using splitRN.induct with
  | case1 => intro p hp; simp [splitRN.eq_1] at hp; simp [hp]
  | case2 rest ih =>
    intro p hp
    rw [splitRN.eq_2] at hp
    rcases List.mem_cons.mp hp with rfl | hm
    · simp
    · exact ih p hm
  | case3 rest ih =>
    intro p hp
    rw [splitRN.eq_3] at hp
    rcases List.mem_cons.mp hp with rfl | hm
    · simp
    · exact ih p hm
  | case4 c rest h1 h2 heq ih => exact absurd heq (splitRN_ne_nil rest)
  | case5 c rest h1 h2 h t heq ih =>
    intro p hp
    rw [splitRN.eq_4 c rest h1 h2, heq] at hp
    rcases List.mem_cons.mp hp with rfl | hm
    · intro hnl
      rcases List.mem_cons.mp hnl with he | hm2
      · exact h1 he.symm
      · exact ih h (heq ▸ List.mem_cons_self h t) hm2
    · exact ih p (heq ▸ List.mem_cons_of_mem h hm)

lemma splitRN_of_no_newline (a : List Char) : '\n' ∉ a → splitRN a = [a] := by
  induction a using splitRN.induct with
  | case1 => intro _; rfl
  | case2 rest ih => intro hn; simp at hn
  | case3 rest ih => intro hn; simp at hn
  | case4 c rest h1 h2 heq ih => intro _; exact absurd heq (splitRN_ne_nil rest)
  | case5 c rest h1 h2 h t heq ih =>
    intro hn
    have hr : '\n' ∉ rest := fun hm => hn (List.mem_cons_of_mem _ hm)
    have h3 := ih hr
    rw [heq] at h3
    injection h3 with h4 h5
    rw [splitRN.eq_4 c rest h1 h2, heq, h4, h5]

lemma splitRN_singleton (a : List Char) : ∀ y, splitRN a = [y] → y = a := by
  induction a using splitRN.induct with
  | case1 => intro y hy; injection hy with h1 _; exact h1.symm
  | case2 rest ih =>
    intro y hy
    rw [splitRN.eq_2] at hy
    injection hy with h1 h2
    exact absurd h2 (splitRN_ne_nil rest)
  | case3 rest ih =>
    intro y hy
    rw [splitRN.eq_3] at hy
    injection hy with h1 h2
    exact absurd h2 (splitRN_ne_nil rest)
  | case4 c rest h1 h2 heq ih => exact absurd heq (splitRN_ne_nil rest)
  | case5 c rest h1 h2 h t heq ih =>
    intro y hy
    rw [splitRN.eq_4 c rest h1 h2, heq] at hy
    injection hy with hy1 hy2
    subst hy2
    have : h = rest := ih h heq
    rw [← hy1, this]

/-- Splitting a ++ b is splitting a, keeping all complete pieces, and
re-splitting the trailing piece glued to b.  This is exactly the
buffered framer's step structure. -/
lemma splitRN_append (a : List Char) :
    ∀ b, splitRN (a ++ b) =
      (splitRN a).dropLast ++ splitRN (lastPart (splitRN a) ++ b) := by
  induction a using splitRN.induct with
  | case1 =>
    intro b
    simp [splitRN.eq_1, lastPart]
  | case2 rest ih =>
    intro b
    have hne := splitRN_ne_nil rest
    rw [List.cons_append, splitRN.eq_2, splitRN.eq_2, ih b,
      dropLast_cons_ne _ _ hne, lastPart_cons_ne _ _ hne, List.cons_append]
  | case3 rest ih =>
    intro b
    have hne := splitRN_ne_nil rest
    rw [List.cons_append, List.cons_append, splitRN.eq_3, splitRN.eq_3, ih b,
      dropLast_cons_ne _ _ hne, lastPart_cons_ne _ _ hne, List.cons_append]
  | case4 c rest h1 h2 heq ih => exact absurd heq (splitRN_ne_nil rest)
  | case5 c rest h1 h2 h t heq ih =>
    intro b
    have hsc : splitRN (c :: rest) = (c :: h) :: t := by
      rw [splitRN.eq_4 c rest h1 h2, heq]
    cases t with
    | nil =>
      have hhr : h = rest := splitRN_singleton rest h heq
      subst hhr
      rw [hsc]
      simp [lastPart]
    | cons t0 ts =>
      have hrne : rest ≠ [] := by
        intro hre
        rw [hre] at heq
        injection heq with _ h5
        exact absurd h5.symm (by simp)
      obtain ⟨r0, rs, hrr⟩ : ∃ r0 rs, rest = r0 :: rs := by
        cases rest with
        | nil => exact absurd rfl hrne
        | cons r0 rs => exact ⟨r0, rs, rfl⟩
      have h2b : ∀ (rest_1 : List Char), c = '\r' → rest ++ b = '\n' :: rest_1 → False := by
        intro rest_1 hc habs
        rw [hrr] at habs
        injection habs with hh _
        exact h2 rs hc (by rw [hrr, hh])
      have hsplit : splitRN ((c :: rest) ++ b) =
          match splitRN (rest ++ b) with
          | [] => [[c]]
          | hx :: tx => (c :: hx) :: tx := by
        rw [List.cons_append]
        exact splitRN.eq_4 c (rest ++ b) h1 h2b
      have hib := ih b
      rw [heq] at hib
      have htne : (t0 :: ts) ≠ ([] : List (List Char)) := by simp
      rw [dropLast_cons_ne _ _ htne, lastPart_cons_ne _ _ htne] at hib
      rw [hsplit, hib]
      rw [hsc, dropLast_cons_ne _ _ htne, lastPart_cons_ne _ _ htne]
      rw [List.cons_append]
      simp

lemma framer_fold (chunks : List String) :
    ∀ (em : List (List Char)) (buf : List Char), '\n' ∉ buf →
      chunks.foldl listFeed (em, buf) =
        (em ++ (splitRN (buf ++ concatChunks chunks)).dropLast,
         lastPart (splitRN (buf ++ concatChunks chunks))) := by
  induction chunks with
  | nil =>
    intro em buf hb
    simp [concatChunks, splitRN_of_no_newline buf hb, lastPart]
  | cons c cs ih =>
    intro em buf hb
    have hstep : (c :: cs).foldl listFeed (em, buf) =
        cs.foldl listFeed (listFeed (em, buf) c) := rfl
    have hfeed : listFeed (em, buf) c =
        (em ++ (splitRN (buf ++ c.data)).dropLast, lastPart (splitRN (buf ++ c.data))) := rfl
    have hlp : '\n' ∉ lastPart (splitRN (buf ++ c.data)) :=
      splitRN_no_newline (buf ++ c.data) _
        (lastPart_mem _ (splitRN_ne_nil (buf ++ c.data)))
    rw [hstep, hfeed, ih _ _ hlp]
    have hconc : concatChunks (c :: cs) = c.data ++ concatChunks cs := by
      simp [concatChunks]
    rw [hconc, ← List.append_assoc, splitRN_append (buf ++ c.data) (concatChunks cs)]
    have hQne := splitRN_ne_nil (lastPart (splitRN (buf ++ c.data)) ++ concatChunks cs)
    rw [dropLast_append_ne _ _ hQne, lastPart_append_ne _ _ hQne, List.append_assoc]

/-- C9 (amended): the buffered /api/list framer is chunk-invariant: for
every way of chunking a text, the complete lines it processes equal
those of the whole text fed as a single chunk, namely all pieces of the
\r?\n split except the held-back last one. -/
theorem c9_list_framer_chunk_invariant (chunks : List String) :
    listFramedLines chunks = (splitRN (concatChunks chunks)).dropLast ∧
    listFramedLines chunks = listFramedLines [String.mk (concatChunks chunks)] := by
  have h := framer_fold chunks [] [] (by simp)
  have h1 : listFramedLines chunks = (splitRN (concatChunks chunks)).dropLast := by
    unfold listFramedLines
    rw [h]
    simp
  refine ⟨h1, ?_⟩
  rw [h1]
  have h2 := framer_fold [String.mk (concatChunks chunks)] [] [] (by simp)
  unfold listFramedLines
  rw [h2]
  simp [concatChunks]

/-- C9 (counterexample): the pipeline that turns process output into
job-log lines is NOT chunk-invariant: a line straddling a chunk boundary
is logged as two lines. -/
theorem c9_counterexample :
    jobLogLinesOfChunks ["ab", "c\nd"] = ["ab", "c", "d"] ∧
    jobLogLinesOfChunks ["ab" ++ "c\nd"] = ["abc", "d"] ∧
    jobLogLinesOfChunks ["ab", "c\nd"] ≠ jobLogLinesOfChunks ["ab" ++ "c\nd"] := by
  refine ⟨by decide, by decide, by decide⟩
